import Mathlib

/-!
Shallow embedding of `datetime_strings.c` (ISO-8601-like datetime parsing and
formatting for a numpy fork), together with proofs about the embedded
functions.

Conventions of the embedding:
* C strings become `List Char`; `str` is NUL-terminated, so reading the byte
  one past the scanned suffix yields `'\x00'` (`peekc [] = Char.ofNat 0`).
* Machine integers become `Int`.  The scan-length counters (`sublen`) are
  modelled as mathematical integers; every input and buffer treated here is
  far below 128 bytes, where the declared C integer types and `Int` agree.
* The external collaborators the file calls but does not define
  (calendar arithmetic, the wall clock / local-timezone services, and the
  unit-casting table) are modelled as an explicit environment record
  `HostEnv`, following the external interfaces named by the specification.
* Fallible C functions returning `0 / -1` with a set exception become
  `Except` values carrying a structured error.
-/

namespace DatetimeStrings

/-- Time units.  Modelled from the spec: the `NPY_DATETIMEUNIT` enumeration is
owned by the enclosing array type system; the spec orders it
`Generic < Year < Month < Week < Day < Hour < Minute < Second < Millisecond
< Microsecond < Nanosecond < Picosecond < Femtosecond < Attosecond`. -/
inductive TimeUnit where
  | GENERIC
  | Y
  | M
  | W
  | D
  | h
  | m
  | s
  | ms
  | us
  | ns
  | ps
  | fs
  | as
deriving DecidableEq

/-- Numeric rank of a unit, used for the `<` / `>=` comparisons the C code
performs on the enumeration values (spec ordering, `Generic` coarsest). -/
def TimeUnit.ord : TimeUnit → Nat
  | .GENERIC => 0
  | .Y => 1
  | .M => 2
  | .W => 3
  | .D => 4
  | .h => 5
  | .m => 6
  | .s => 7
  | .ms => 8
  | .us => 9
  | .ns => 10
  | .ps => 11
  | .fs => 12
  | .as => 13

/-- Casting rules.  Modelled from the spec: an externally owned opaque policy
token (no-cast / equivalent / safe / same-kind / unsafe); this core only
passes it to the casting predicate. -/
inductive CastingRule where
  | noCast
  | equivCast
  | safeCast
  | sameKindCast
  | forceCast
deriving DecidableEq

/-- The shared broken-down time value (`npy_datetimestruct`).  The C `as`
field (attoseconds) keeps its source name. -/
structure DTS where
  year : Int
  month : Int
  day : Int
  hour : Int
  min : Int
  sec : Int
  us : Int
  ps : Int
  as : Int
deriving DecidableEq

/-- A C `struct tm` restricted to the fields this file reads or writes. -/
structure Tm where
  sec : Int
  min : Int
  hour : Int
  mday : Int
  mon : Int
  year : Int
deriving DecidableEq

/-- `NPY_DATETIME_NAT`, the int64 sentinel for not-a-time. -/
def NPY_DATETIME_NAT : Int := -(2 ^ 63)

/-- Modelled from the spec: the fixed maximum buffer length used when no unit
is provided (`Auto` covers the widest year, full attosecond precision and an
offset).  The constant itself lives in a header outside the translated file;
no theorem below depends on its value. -/
def NPY_DATETIME_MAX_ISO8601_STRLEN : Int := 62

/-- Modelled from the spec: the external environment record bundling the
calendar-arithmetic library, the host wall-clock and local-timezone services
and the externally owned unit-casting table (`isLeapYear`/`daysInMonth` are
concrete below since their semantics is fixed by the spec; the rest stay
abstract functions). -/
structure HostEnv where
  /-- local `struct tm` for the current time (`time` + `localtime_r`),
  `none` when the OS call fails; used by the "today" path. -/
  todayTm : Option Tm
  /-- current UTC time already converted to a broken-down value
  (`time` + `convert_datetime_to_datetimestruct` at seconds resolution),
  `none` when the conversion fails; used by the "now" path. -/
  nowDts : Option DTS
  /-- the parser's `mktime` + `gmtime_r` composite: local broken-down time
  in, UTC broken-down time out, `none` on failure. -/
  localToUTC : Tm → Option Tm
  /-- the formatter's `localtime_r`: POSIX seconds in, local `struct tm`
  out, `none` on failure. -/
  localtimeAt : Int → Option Tm
  /-- `get_datetimestruct_days`: day count since the epoch. -/
  daysSinceEpoch : DTS → Int
  /-- `add_minutes_to_datetimestruct`: calendar-aware minute addition. -/
  addMinutes : DTS → Int → DTS
  /-- `can_cast_datetime64_units`: the externally owned casting table. -/
  canCast : TimeUnit → TimeUnit → CastingRule → Bool

/-! ### Character classification (C `ctype` on the ASCII inputs at hand) -/

/-- Reading the next byte of the scanned suffix; past the end this is the
NUL terminator of the C string. -/
def peekc : List Char → Char
  | [] => Char.ofNat 0
  | c :: _ => c

def isdigitc (c : Char) : Bool :=
  decide (48 ≤ c.toNat) && decide (c.toNat ≤ 57)

def isspacec (c : Char) : Bool :=
  c = ' ' || c = Char.ofNat 9 || c = Char.ofNat 10 || c = Char.ofNat 11 ||
    c = Char.ofNat 12 || c = Char.ofNat 13

def tolowerc (c : Char) : Char :=
  if 'A' ≤ c ∧ c ≤ 'Z' then Char.ofNat (c.toNat + 32) else c

/-- Numeric value of a digit character (`c - '0'`). -/
def dval (c : Char) : Int := (c.toNat : Int) - 48

/-! ### Calendar helpers (external to the translated file) -/

/-- Modelled from the spec: the external `isLeapYear` test (Gregorian). -/
def is_leapyear (year : Int) : Bool :=
  year % 4 = 0 && (year % 100 ≠ 0 || year % 400 = 0)

/-- Modelled from the spec: the external days-per-month table
(`_days_per_month_table[leap][month-1]`), leap-year aware. -/
def days_per_month_table (leap : Bool) (month : Int) : Int :=
  if month = 1 then 31
  else if month = 2 then (if leap then 29 else 28)
  else if month = 3 then 31
  else if month = 4 then 30
  else if month = 5 then 31
  else if month = 6 then 30
  else if month = 7 then 31
  else if month = 8 then 31
  else if month = 9 then 30
  else if month = 10 then 31
  else if month = 11 then 30
  else if month = 12 then 31
  else 0

/-! ### Scanning primitives -/

/-- `while (sublen > 0 && isspace(*substr)) { ++substr; --sublen; }`:
returns the number of bytes skipped and the rest. -/
def skipWS : List Char → Nat × List Char
  | [] => (0, [])
  | c :: rest =>
      if isspacec c then
        let r := skipWS rest
        (r.1 + 1, r.2)
      else (0, c :: rest)

/-- The year loop: `while (sublen > 0 && isdigit(*substr)) { year = 10*year
+ digit; ... }`.  Returns the accumulated value, the digit count consumed
and the rest. -/
def readYearLoop : List Char → Int → Int × Nat × List Char
  | [], acc => (acc, 0, [])
  | c :: rest, acc =>
      if isdigitc c then
        let r := readYearLoop rest (10 * acc + dval c)
        (r.1, r.2.1 + 1, r.2.2)
      else (acc, 0, c :: rest)

/-- A mandatory two-digit field:
`sublen >= 2 && isdigit(substr[0]) && isdigit(substr[1])`. -/
def read2 : List Char → Option (Int × List Char)
  | a :: b :: rest =>
      if isdigitc a && isdigitc b then some (10 * dval a + dval b, rest)
      else none
  | _ => none

/-- One fractional six-step group: each of the (remaining) `fuel` iterations
multiplies the accumulator by ten and consumes a digit when one is
available (`for (i = 0; i < 6; ++i) { v *= 10; if (sublen > 0 &&
isdigit(*substr)) { v += digit; ...; ++numdigits; } }`).  Returns the value,
the digit count and the rest. -/
def readFracGroup : Nat → Int → Nat → List Char → Int × Nat × List Char
  | 0, acc, nd, rem => (acc, nd, rem)
  | fuel + 1, acc, nd, rem =>
      match rem with
      | [] => readFracGroup fuel (acc * 10) nd []
      | c :: rest =>
          if isdigitc c then readFracGroup fuel (acc * 10 + dval c) (nd + 1) rest
          else readFracGroup fuel (acc * 10) nd (c :: rest)

/-! ### Parser data -/

/-- Structured failure classification of `parse_iso_8601_datetime`
(the C code reports these as distinct Python exceptions; `malformed`
carries `substr - str`). -/
inductive ParseErr where
  | malformed (pos : Nat)
  | monthRange
  | dayRange
  | hoursRange
  | minutesRange
  | secondsRange
  | tzHoursRange
  | tzMinutesRange
  | genericUnit
  | todayUnit
  | castError
  | clockError
deriving DecidableEq

/-- The parser's outputs: `out`, `*out_local`, `*out_bestunit`,
`*out_special`.  `isLocal` is an `Option` because one success path of the C
code returns without ever storing to `*out_local`. -/
structure ParseOutcome where
  dts : DTS
  isLocal : Option Bool
  bestUnit : TimeUnit
  isSpecial : Bool
deriving DecidableEq

/-- Where the pre-timezone field scan of the general path ends: either one of
the `goto finish` points at year/month/day granularity (locality stored as
false), or entry into `parse_timezone` with the position and rest. -/
inductive ScanResult where
  | done (dts : DTS) (bu : TimeUnit)
  | tz (dts : DTS) (bu : TimeUnit) (pos : Nat) (rem : List Char)
deriving DecidableEq

def scanDts : ScanResult → DTS
  | .done d _ => d
  | .tz d _ _ _ => d

def scanBu : ScanResult → TimeUnit
  | .done _ b => b
  | .tz _ b _ _ => b

/-- Empty string, or a case variant of "NaT"
(`len <= 0 || (len == 3 && tolower… == "nat")`). -/
def isNatStr : List Char → Bool
  | [] => true
  | [a, b, c] => tolowerc a = 'n' && tolowerc b = 'a' && tolowerc c = 't'
  | _ => false

/-- `len == 5` and a case variant of "today". -/
def isTodayStr : List Char → Bool
  | [a, b, c, d, e] =>
      tolowerc a = 't' && tolowerc b = 'o' && tolowerc c = 'd' &&
        tolowerc d = 'a' && tolowerc e = 'y'
  | _ => false

/-- `len == 3` and a case variant of "now". -/
def isNowStr : List Char → Bool
  | [a, b, c] => tolowerc a = 'n' && tolowerc b = 'o' && tolowerc c = 'w'
  | _ => false

/-- `unit != -1 && unit > NPY_FR_D` on the "today" path. -/
def todayTooFine : Option TimeUnit → Bool
  | none => false
  | some u => TimeUnit.D.ord < u.ord

/-- The all-zero value after `memset` plus `month = day = 1`. -/
def dtsZero : DTS :=
  { year := 0, month := 1, day := 1, hour := 0, min := 0, sec := 0,
    us := 0, ps := 0, as := 0 }

/-! ### Parser stages

The C function is a single body with `goto finish`, `goto parse_timezone`
and `goto parse_error`; each `goto` target becomes a definition below, and
`pos` threads `substr - str` for the positioned parse errors. -/

/-- The `finish` label: store `*out_bestunit` and apply the casting gate
(`unit != -1 && !can_cast_datetime64_units(bestunit, unit, casting)`). -/
def finishParse (env : HostEnv) (unit : Option TimeUnit) (casting : CastingRule)
    (dts : DTS) (loc : Option Bool) (bu : TimeUnit) :
    Except ParseErr ParseOutcome :=
  match unit with
  | none => .ok ⟨dts, loc, bu, false⟩
  | some u =>
      if env.canCast bu u casting then .ok ⟨dts, loc, bu, false⟩
      else .error .castError

/-- Lines after the timezone designator: skip trailing whitespace, then any
remaining byte is a positioned parse error, otherwise fall through to
`finish`. -/
def afterTzSkip (env : HostEnv) (unit : Option TimeUnit) (casting : CastingRule)
    (dts : DTS) (loc : Option Bool) (bu : TimeUnit) (pos : Nat)
    (rem : List Char) : Except ParseErr ParseOutcome :=
  let r := skipWS rem
  if r.2 = [] then finishParse env unit casting dts loc bu
  else .error (.malformed (pos + r.1))

/-- Applying an explicit `±HH[:MM]` offset: negate if needed, then
`add_minutes_to_datetimestruct(out, -60 * offset_hour - offset_minute)`. -/
def applyTzOffset (env : HostEnv) (unit : Option TimeUnit)
    (casting : CastingRule) (dts : DTS) (bu : TimeUnit) (pos : Nat)
    (rem : List Char) (neg : Bool) (oh om : Int) :
    Except ParseErr ParseOutcome :=
  let oh1 := if neg then -oh else oh
  let om1 := if neg then -om else om
  let dts1 := env.addMinutes dts (-60 * oh1 - om1)
  afterTzSkip env unit casting dts1 (some false) bu pos rem

/-- The `parse_timezone` label.  An exhausted input means local time: for
`1900 < year < 10000` the assembled fields are converted from local time to
UTC through `mktime`/`gmtime`, and `*out_local = 1` either way.  `Z` and
`±HH[:MM]` store `*out_local = 0`.  Any other byte falls through to the
trailing-whitespace skip without storing `*out_local` at all. -/
def parseTimezone (env : HostEnv) (unit : Option TimeUnit)
    (casting : CastingRule) (dts : DTS) (bu : TimeUnit) (pos : Nat)
    (rem : List Char) : Except ParseErr ParseOutcome :=
  match rem with
  | [] =>
      if 1900 < dts.year ∧ dts.year < 10000 then
        match env.localToUTC
            { sec := dts.sec, min := dts.min, hour := dts.hour,
              mday := dts.day, mon := dts.month - 1,
              year := dts.year - 1900 } with
        | none => .error .clockError
        | some t =>
            finishParse env unit casting
              { dts with
                sec := t.sec
                min := t.min
                hour := t.hour
                day := t.mday
                month := t.mon + 1
                year := t.year + 1900 }
              (some true) bu
      else finishParse env unit casting dts (some true) bu
  | c :: rest =>
      if c = 'Z' then
        match rest with
        | [] => finishParse env unit casting dts (some false) bu
        | _ :: _ => afterTzSkip env unit casting dts (some false) bu (pos + 1) rest
      else if c = '-' || c = '+' then
        match read2 rest with
        | none => .error (.malformed (pos + 1))
        | some (oh, rem2) =>
            if 24 ≤ oh then .error .tzHoursRange
            else
              match rem2 with
              | [] => applyTzOffset env unit casting dts bu (pos + 3) [] (c = '-') oh 0
              | _ :: _ =>
                  let hasColon := peekc rem2 = ':'
                  let rem3 := if hasColon then rem2.tail else rem2
                  let pos3 := if hasColon then pos + 4 else pos + 3
                  match read2 rem3 with
                  | none => .error (.malformed pos3)
                  | some (om, rem4) =>
                      if 60 ≤ om then .error .tzMinutesRange
                      else
                        applyTzOffset env unit casting dts bu (pos3 + 2) rem4
                          (c = '-') oh om
      else afterTzSkip env unit casting dts none bu pos (c :: rest)

/-- The fractional-seconds stages (microseconds, then picoseconds, then
attoseconds, six digits each); the digit count of the last group read picks
the best unit, and the scan then enters `parse_timezone`. -/
def parseFrac (dts : DTS) (pos : Nat) (rem : List Char) : ScanResult :=
  let g1 := readFracGroup 6 0 0 rem
  let dts1 := { dts with us := g1.1 }
  if g1.2.2 = [] || !isdigitc (peekc g1.2.2) then
    .tz dts1 (if 3 < g1.2.1 then .us else .ms) (pos + g1.2.1) g1.2.2
  else
    let g2 := readFracGroup 6 0 0 g1.2.2
    let dts2 := { dts1 with ps := g2.1 }
    if g2.2.2 = [] || !isdigitc (peekc g2.2.2) then
      .tz dts2 (if 3 < g2.2.1 then .ps else .ns) (pos + g1.2.1 + g2.2.1) g2.2.2
    else
      let g3 := readFracGroup 6 0 0 g2.2.2
      let dts3 := { dts2 with as := g3.1 }
      .tz dts3 (if 3 < g3.2.1 then .as else .fs)
        (pos + g1.2.1 + g2.2.1 + g3.2.1) g3.2.2

/-- The seconds stage and the optional fractional point (entered after the
minutes): `out->sec` is range-checked, then either the fractional stages or
entry into `parse_timezone` at seconds granularity. -/
def scanSeconds (dts : DTS) (pos11 : Nat) (rem11 : List Char) :
    Except ParseErr ScanResult :=
  if peekc rem11 = ':' then
    match read2 rem11.tail with
    | none => .error (.malformed (pos11 + 1))
    | some (se, rem13) =>
        if se < 0 ∨ 60 ≤ se then .error .secondsRange
        else
          let dtsS := { dts with sec := se }
          if peekc rem13 = '.' then
            .ok (parseFrac dtsS (pos11 + 3 + 1) rem13.tail)
          else .ok (.tz dtsS .s (pos11 + 3) rem13)
  else .ok (.tz dts .m pos11 rem11)

/-- The minutes stage (entered after the hours).  Faithful oddity of the
source: the range check tests `out->hour < 0` where `out->min < 0` was
evidently meant. -/
def scanMinutes (dts : DTS) (pos9 : Nat) (rem9 : List Char) :
    Except ParseErr ScanResult :=
  if peekc rem9 = ':' then
    match read2 rem9.tail with
    | none => .error (.malformed (pos9 + 1))
    | some (mi, rem11) =>
        if dts.hour < 0 ∨ 60 ≤ mi then .error .minutesRange
        else scanSeconds { dts with min := mi } (pos9 + 3) rem11
  else .ok (.tz dts .h pos9 rem9)

/-- The hours stage: a day-granularity finish when the input ends, else the
mandatory `'T'` or `' '` separator and a range-checked two-digit hour. -/
def scanHours (dts : DTS) (pos7 : Nat) (rem7 : List Char) :
    Except ParseErr ScanResult :=
  match rem7 with
  | [] => .ok (.done dts .D)
  | c7 :: rem8 =>
      if c7 ≠ 'T' ∧ c7 ≠ ' ' then .error (.malformed pos7)
      else
        match read2 rem8 with
        | none => .error (.malformed (pos7 + 1))
        | some (hr, rem9) =>
            if hr < 0 ∨ 24 ≤ hr then .error .hoursRange
            else scanMinutes { dts with hour := hr } (pos7 + 3) rem9

/-- The day stage: a month-granularity finish when the input ends, else the
mandatory `'-'` and a two-digit day checked against the leap-aware
days-per-month table. -/
def scanDay (dts : DTS) (leap : Bool) (pos5 : Nat) (rem5 : List Char) :
    Except ParseErr ScanResult :=
  match rem5 with
  | [] => .ok (.done dts .M)
  | c5 :: rem6 =>
      if c5 ≠ '-' then .error (.malformed pos5)
      else
        match read2 rem6 with
        | none => .error (.malformed (pos5 + 1))
        | some (dy, rem7) =>
            if dy < 1 ∨ days_per_month_table leap dts.month < dy then
              .error .dayRange
            else scanHours { dts with day := dy } (pos5 + 3) rem7

/-- The month stage: a year-granularity finish when the input ends, else
the mandatory `'-'` and a range-checked two-digit month. -/
def scanMonth (dts : DTS) (leap : Bool) (pos3 : Nat) (rem3 : List Char) :
    Except ParseErr ScanResult :=
  match rem3 with
  | [] => .ok (.done dts .Y)
  | c3 :: rem4 =>
      if c3 ≠ '-' then .error (.malformed pos3)
      else
        match read2 rem4 with
        | none => .error (.malformed (pos3 + 1))
        | some (mo, rem5) =>
            if mo < 1 ∨ 12 < mo then .error .monthRange
            else scanDay { dts with month := mo } leap (pos3 + 3) rem5

/-- The general (non-special) field scan, from the leading-whitespace skip
and the year digits down to entry into `parse_timezone` or one of the
date-granularity finish points.  Faithful oddity of the source: the year is
negated when the first byte of the whole string is `'-'` (`str[0]`, not the
byte after the whitespace skip). -/
def parseMain (str : List Char) : Except ParseErr ScanResult :=
  let t0 := skipWS str
  let hasSign := peekc t0.2 = '-'
  let rem2 := if hasSign then t0.2.tail else t0.2
  let pos2 := if hasSign then t0.1 + 1 else t0.1
  if rem2 = [] then .error (.malformed pos2)
  else
    let ry := readYearLoop rem2 0
    let year := if str.head? = some '-' then -ry.1 else ry.1
    scanMonth { dtsZero with year := year } (is_leapyear year)
      (pos2 + ry.2.1) ry.2.2

/-- The "now" tail: metadata at seconds resolution, then the conversion of
the current time (which is where this path can still fail). -/
def nowResult (env : HostEnv) : Except ParseErr ParseOutcome :=
  match env.nowDts with
  | none => .error .clockError
  | some d => .ok ⟨d, some false, .s, true⟩

/-- `parse_iso_8601_datetime`: special-value recognition (empty/"NaT",
the generic-unit rejection, "today", "now"), then the general scan,
timezone handling and the casting gate. -/
def parse_iso_8601_datetime (env : HostEnv) (str : List Char)
    (unit : Option TimeUnit) (casting : CastingRule) :
    Except ParseErr ParseOutcome :=
  if isNatStr str then
    .ok ⟨{ dtsZero with year := NPY_DATETIME_NAT }, some false, .GENERIC, true⟩
  else if unit = some .GENERIC then .error .genericUnit
  else if isTodayStr str then
    if todayTooFine unit then .error .todayUnit
    else
      match env.todayTm with
      | none => .error .clockError
      | some t =>
          let dts : DTS :=
            { dtsZero with
              year := t.year + 1900
              month := t.mon + 1
              day := t.mday }
          match unit with
          | none => .ok ⟨dts, some false, .D, true⟩
          | some u =>
              if env.canCast .D u casting then .ok ⟨dts, some false, .D, true⟩
              else .error .castError
  else if isNowStr str then
    match unit with
    | none => nowResult env
    | some u =>
        if env.canCast .s u casting then nowResult env
        else .error .castError
  else
    match parseMain str with
    | .error e => .error e
    | .ok (.done dts bu) => finishParse env unit casting dts (some false) bu
    | .ok (.tz dts bu pos rem) => parseTimezone env unit casting dts bu pos rem

/-! ### Length calculator -/

/-- The per-unit running length of `get_datetime_iso_8601_strlen`: the C
`switch` falls through from the requested unit down to the year, adding each
field group's fixed width (the values below are the accumulated sums;
`NPY_FR_W` shares the `NPY_FR_D` case). -/
def baseLen : TimeUnit → Int
  | .GENERIC => 0
  | .Y => 21
  | .M => 3 + 21
  | .W => 3 + 3 + 21
  | .D => 3 + 3 + 21
  | .h => 3 + (3 + 3 + 21)
  | .m => 3 + (3 + (3 + 3 + 21))
  | .s => 3 + (3 + (3 + (3 + 3 + 21)))
  | .ms => 4 + (3 + (3 + (3 + (3 + 3 + 21))))
  | .us => 3 + (4 + (3 + (3 + (3 + (3 + 3 + 21)))))
  | .ns => 3 + (3 + (4 + (3 + (3 + (3 + (3 + 3 + 21))))))
  | .ps => 3 + (3 + (3 + (4 + (3 + (3 + (3 + (3 + 3 + 21)))))))
  | .fs => 3 + (3 + (3 + (3 + (4 + (3 + (3 + (3 + (3 + 3 + 21))))))))
  | .as => 3 + (3 + (3 + (3 + (3 + (4 + (3 + (3 + (3 + (3 + 3 + 21)))))))))

/-- `get_datetime_iso_8601_strlen`: buffer length needed for the given
locality and unit (`none` is the `-1` "maximum length" request). -/
def get_datetime_iso_8601_strlen (localFlag : Bool) (base : Option TimeUnit) :
    Int :=
  match base with
  | none => NPY_DATETIME_MAX_ISO8601_STRLEN
  | some .GENERIC => 4
  | some b =>
      let len := baseLen b
      let len :=
        if TimeUnit.h.ord ≤ b.ord then (if localFlag then len + 5 else len + 1)
        else len
      len + 1

/-! ### Formatter -/

inductive FmtErr where
  | bufferTooShort
  | clockError
deriving DecidableEq

/-- The NUL terminator byte. -/
def natC : Char := Char.ofNat 0

/-- The `string_too_short` label: terminate whatever fits
(`outstr[outlen-1] = '\0'` when `outlen > 0`) and fail. -/
def tooShortRes (b : List Char) : Except FmtErr Unit × List Char :=
  (.error .bufferTooShort,
    if 0 < b.length then b.set (b.length - 1) natC else b)

/-- Decimal digits of a natural number, most significant first (helper for
the `snprintf("%04" NPY_INT64_FMT)` year field); the first argument is
recursion fuel, always instantiated with the number itself. -/
def natDigitsAux : Nat → Nat → List Char
  | 0, _ => []
  | fuel + 1, n =>
      if n = 0 then []
      else natDigitsAux fuel (n / 10) ++ [Char.ofNat (48 + n % 10)]

def natDigitsStr (n : Nat) : List Char :=
  if n = 0 then ['0'] else natDigitsAux n n

/-- Left padding with a given character up to a minimum width. -/
def leftPad (c : Char) (w : Nat) (s : List Char) : List Char :=
  List.replicate (w - s.length) c ++ s

/-- The text `snprintf(substr, sublen, "%04" NPY_INT64_FMT, year)` produces:
zero-padded to overall width 4, the padding sitting between a `-` sign and
the digits. -/
def yearStr (y : Int) : List Char :=
  if y < 0 then '-' :: leftPad '0' 3 (natDigitsStr (-y).toNat)
  else leftPad '0' 4 (natDigitsStr y.toNat)

/-- Writing a list of characters at consecutive buffer positions. -/
def writeChars (b : List Char) (p : Nat) : List Char → List Char
  | [] => b
  | c :: rest => writeChars (b.set p c) (p + 1) rest

/-- The year field: `snprintf` writes at most `sublen - 1` characters plus a
terminator and returns the untruncated length `tmplen`; `tmplen < 0 ||
tmplen >= sublen` is the too-short exit.  On success the cursor advances by
`tmplen` and `sublen` shrinks accordingly. -/
def putYear (b : List Char) (sub : Int) (y : Int) :
    Except (List Char) (Nat × Int × List Char) :=
  let ys := yearStr y
  let tmplen : Int := ys.length
  let w : Nat := (min tmplen (sub - 1)).toNat
  let b1 := if sub ≤ 0 then b else (writeChars b 0 (ys.take w)).set w natC
  if tmplen < 0 ∨ sub ≤ tmplen then .error b1
  else .ok (ys.length, sub - tmplen, b1)

/-- A three-character field group (`substr[0..2]`), each write followed by
its `sublen <= k` capacity check, exactly as in the source.  On failure the
partially written buffer is returned for the `string_too_short` handler. -/
def put3 (b : List Char) (p : Nat) (sub : Int) (c0 c1 c2 : Char) :
    Except (List Char) (List Char) :=
  let b0 := b.set p c0
  if sub ≤ 1 then .error b0
  else
    let b1 := b0.set (p + 1) c1
    if sub ≤ 2 then .error b1
    else
      let b2 := b1.set (p + 2) c2
      if sub ≤ 3 then .error b2
      else .ok b2

/-- The four-character millisecond group (`".###"`). -/
def put4 (b : List Char) (p : Nat) (sub : Int) (c0 c1 c2 c3 : Char) :
    Except (List Char) (List Char) :=
  let b0 := b.set p c0
  if sub ≤ 1 then .error b0
  else
    let b1 := b0.set (p + 1) c1
    if sub ≤ 2 then .error b1
    else
      let b2 := b1.set (p + 2) c2
      if sub ≤ 3 then .error b2
      else
        let b3 := b2.set (p + 3) c3
        if sub ≤ 4 then .error b3
        else .ok b3

/-- The buffer state after a successful three-character group write
(proof abbreviation for the success case of `put3`). -/
def put3buf (b : List Char) (p : Nat) (c0 c1 c2 : Char) : List Char :=
  ((b.set p c0).set (p + 1) c1).set (p + 2) c2

/-- The buffer state after a successful four-character group write. -/
def put4buf (b : List Char) (p : Nat) (c0 c1 c2 c3 : Char) : List Char :=
  (((b.set p c0).set (p + 1) c1).set (p + 2) c2).set (p + 3) c3

/-- The buffer state after a successful year write. -/
def putYearBuf (b : List Char) (y : Int) : List Char :=
  (writeChars b 0 (yearStr y)).set (yearStr y).length natC

/-- Digit character for values in `[0, 9]` (`(char)(v + '0')`); conversion
of values outside the range is implementation-defined in C and clamped
here. -/
def digitC (v : Int) : Char := Char.ofNat (v + 48).toNat

/-- The `add_time_zone` label: a signed `±HHMM` offset when local, a single
`Z` otherwise, then the final NUL terminator. -/
def tzStep (b : List Char) (p : Nat) (sub : Int) (localFlag : Bool) (off : Int) :
    Except FmtErr Unit × List Char :=
  if localFlag then
    let sgn := if off < 0 then '-' else '+'
    let o := if off < 0 then -off else off
    let b0 := b.set p sgn
    if sub ≤ 1 then tooShortRes b0
    else
      let b1 := b0.set (p + 1) (digitC (o / (10 * 60) % 10))
      if sub - 1 ≤ 1 then tooShortRes b1
      else
        let b2 := b1.set (p + 2) (digitC (o / 60 % 10))
        if sub - 1 ≤ 2 then tooShortRes b2
        else
          let b3 := b2.set (p + 3) (digitC (o % 60 / 10 % 10))
          if sub - 1 ≤ 3 then tooShortRes b3
          else
            let b4 := b3.set (p + 4) (digitC (o % 60 % 10))
            if sub - 1 ≤ 4 then tooShortRes b4
            else (.ok (), b4.set (p + 5) natC)
  else
    let b0 := b.set p 'Z'
    if sub ≤ 1 then tooShortRes b0
    else (.ok (), b0.set (p + 1) natC)

/-- Automatic unit detection (`base == -1`): the finest unit with a nonzero
remainder, checked finest to coarsest; local output forces at least minute
resolution.  `Int.tmod` is C's truncated `%`. -/
def autoUnit (dts : DTS) (localFlag : Bool) : TimeUnit :=
  if Int.tmod dts.as 1000 ≠ 0 then .as
  else if dts.as ≠ 0 then .fs
  else if Int.tmod dts.ps 1000 ≠ 0 then .ps
  else if dts.ps ≠ 0 then .ns
  else if Int.tmod dts.us 1000 ≠ 0 then .us
  else if dts.us ≠ 0 then .ms
  else if dts.sec ≠ 0 then .s
  else if localFlag || dts.min ≠ 0 || dts.hour ≠ 0 then .m
  else .D

/-- The emission chain of `make_iso_8601_datetime`, from the year write
down to the timezone suffix: one fixed-width group per unit, stopping at
`base`.  `Int.tdiv`/`Int.tmod` are C's truncated `/` and `%`. -/
def emitISO (dts : DTS) (b : List Char) (sub : Int) (base : TimeUnit)
    (localFlag : Bool) (off : Int) : Except FmtErr Unit × List Char :=
  match putYear b sub dts.year with
  | .error bb => tooShortRes bb
  | .ok (p0, sub0, b0) =>
    if base = .Y then (.ok (), b0.set p0 natC)
    else
      match put3 b0 p0 sub0 '-' (digitC (Int.tdiv dts.month 10))
          (digitC (Int.tmod dts.month 10)) with
      | .error bb => tooShortRes bb
      | .ok b1 =>
        if base = .M then (.ok (), b1.set (p0 + 3) natC)
        else
          match put3 b1 (p0 + 3) (sub0 - 3) '-' (digitC (Int.tdiv dts.day 10))
              (digitC (Int.tmod dts.day 10)) with
          | .error bb => tooShortRes bb
          | .ok b2 =>
            if base = .D then (.ok (), b2.set (p0 + 6) natC)
            else
              match put3 b2 (p0 + 6) (sub0 - 6) 'T'
                  (digitC (Int.tdiv dts.hour 10))
                  (digitC (Int.tmod dts.hour 10)) with
              | .error bb => tooShortRes bb
              | .ok b3 =>
                if base = .h then tzStep b3 (p0 + 9) (sub0 - 9) localFlag off
                else
                  match put3 b3 (p0 + 9) (sub0 - 9) ':'
                      (digitC (Int.tdiv dts.min 10))
                      (digitC (Int.tmod dts.min 10)) with
                  | .error bb => tooShortRes bb
                  | .ok b4 =>
                    if base = .m then tzStep b4 (p0 + 12) (sub0 - 12) localFlag off
                    else
                      match put3 b4 (p0 + 12) (sub0 - 12) ':'
                          (digitC (Int.tdiv dts.sec 10))
                          (digitC (Int.tmod dts.sec 10)) with
                      | .error bb => tooShortRes bb
                      | .ok b5 =>
                        if base = .s then
                          tzStep b5 (p0 + 15) (sub0 - 15) localFlag off
                        else
                          match put4 b5 (p0 + 15) (sub0 - 15) '.'
                              (digitC (Int.tdiv dts.us 100000 % 10))
                              (digitC (Int.tdiv dts.us 10000 % 10))
                              (digitC (Int.tdiv dts.us 1000 % 10)) with
                          | .error bb => tooShortRes bb
                          | .ok b6 =>
                            if base = .ms then
                              tzStep b6 (p0 + 19) (sub0 - 19) localFlag off
                            else
                              match put3 b6 (p0 + 19) (sub0 - 19)
                                  (digitC (Int.tdiv dts.us 100 % 10))
                                  (digitC (Int.tdiv dts.us 10 % 10))
                                  (digitC (Int.tmod dts.us 10)) with
                              | .error bb => tooShortRes bb
                              | .ok b7 =>
                                if base = .us then
                                  tzStep b7 (p0 + 22) (sub0 - 22) localFlag off
                                else
                                  match put3 b7 (p0 + 22) (sub0 - 22)
                                      (digitC (Int.tdiv dts.ps 100000 % 10))
                                      (digitC (Int.tdiv dts.ps 10000 % 10))
                                      (digitC (Int.tdiv dts.ps 1000 % 10)) with
                                  | .error bb => tooShortRes bb
                                  | .ok b8 =>
                                    if base = .ns then
                                      tzStep b8 (p0 + 25) (sub0 - 25) localFlag off
                                    else
                                      match put3 b8 (p0 + 25) (sub0 - 25)
                                          (digitC (Int.tdiv dts.ps 100 % 10))
                                          (digitC (Int.tdiv dts.ps 10 % 10))
                                          (digitC (Int.tmod dts.ps 10)) with
                                      | .error bb => tooShortRes bb
                                      | .ok b9 =>
                                        if base = .ps then
                                          tzStep b9 (p0 + 28) (sub0 - 28) localFlag off
                                        else
                                          match put3 b9 (p0 + 28) (sub0 - 28)
                                              (digitC (Int.tdiv dts.as 100000 % 10))
                                              (digitC (Int.tdiv dts.as 10000 % 10))
                                              (digitC (Int.tdiv dts.as 1000 % 10)) with
                                          | .error bb => tooShortRes bb
                                          | .ok b10 =>
                                            if base = .fs then
                                              tzStep b10 (p0 + 31) (sub0 - 31) localFlag off
                                            else
                                              match put3 b10 (p0 + 31) (sub0 - 31)
                                                  (digitC (Int.tdiv dts.as 100 % 10))
                                                  (digitC (Int.tdiv dts.as 10 % 10))
                                                  (digitC (Int.tmod dts.as 10)) with
                                              | .error bb => tooShortRes bb
                                              | .ok b11 =>
                                                tzStep b11 (p0 + 34) (sub0 - 34) localFlag off

/-- The body of `make_iso_8601_datetime` after the NaT short-circuit:
year-range locality gating, automatic unit detection, week-to-day collapse,
local-time conversion, then the emission chain.  `base = none` is the C
`-1` and `tzoffset = none` the C `-1` manual-offset sentinel. -/
def makeISOBody (env : HostEnv) (dts : DTS) (buf : List Char)
    (localFlag : Bool) (base : Option TimeUnit) (tzoffset : Option Int) :
    Except FmtErr Unit × List Char :=
    let local1 :=
      if (dts.year ≤ 1900 ∨ 10000 ≤ dts.year) ∧ tzoffset = none then false
      else localFlag
    let base1 :=
      match base with
      | none => autoUnit dts local1
      | some b => if b = TimeUnit.W then TimeUnit.D else b
    let local2 := if base1.ord < TimeUnit.h.ord then false else local1
    if local2 ∧ tzoffset = none then
      let rawtime :=
        env.daysSinceEpoch dts * 24 * 60 * 60 + dts.hour * 60 * 60 +
          dts.min * 60
      match env.localtimeAt rawtime with
      | none => (.error .clockError, buf)
      | some t =>
          let dtsL :=
            { dts with
              min := t.min
              hour := t.hour
              day := t.mday
              month := t.mon + 1
              year := t.year + 1900 }
          let rawm := Int.tdiv rawtime 60
          let localrawm :=
            env.daysSinceEpoch dtsL * 24 * 60 + dtsL.hour * 60 + dtsL.min
          emitISO dtsL buf buf.length base1 local2 (localrawm - rawm)
    else if local2 then
      match tzoffset with
      | some off => emitISO (env.addMinutes dts off) buf buf.length base1 local2 off
      | none => emitISO dts buf buf.length base1 local2 0
    else emitISO dts buf buf.length base1 local2 0

/-- `make_iso_8601_datetime`: the NaT short-circuit (faithfully including
the source's four consecutive stores to `outstr[0]`), then the general
body above. -/
def make_iso_8601_datetime (env : HostEnv) (dts : DTS) (buf : List Char)
    (localFlag : Bool) (base : Option TimeUnit) (tzoffset : Option Int) :
    Except FmtErr Unit × List Char :=
  if dts.year = NPY_DATETIME_NAT ∨ base = some TimeUnit.GENERIC then
    if buf.length < 4 then tooShortRes buf
    else (.ok (), ((((buf.set 0 'N').set 0 'a').set 0 'T').set 0 natC))
  else makeISOBody env dts buf localFlag base tzoffset

/-! ### Spec-side definitions and concrete test fixtures -/

/-- Spec-side restatement of the fractional best-unit rule, written from the
specification's words: the digit count of the last sub-second group read
picks the unit, more than three digits selecting the finer member of the
pair. -/
def fracBestUnitSpec (n : Nat) : TimeUnit :=
  if n ≤ 6 then (if 3 < n then .us else .ms)
  else if n ≤ 12 then (if 3 < n - 6 then .ps else .ns)
  else (if 3 < n - 12 then .as else .fs)

/-- Internal consistency of the fields a successful scan can produce, as the
specification states it: month and day within the leap-year-aware calendar,
hour/minute/second within their clock ranges. -/
def dtsFieldsOK (d : DTS) : Prop :=
  1 ≤ d.month ∧ d.month ≤ 12 ∧
    1 ≤ d.day ∧ d.day ≤ days_per_month_table (is_leapyear d.year) d.month ∧
    0 ≤ d.hour ∧ d.hour < 24 ∧
    0 ≤ d.min ∧ d.min < 60 ∧
    0 ≤ d.sec ∧ d.sec < 60

instance (d : DTS) : Decidable (dtsFieldsOK d) := by
  unfold dtsFieldsOK
  infer_instance

/-- A concrete environment for closed evaluations: every host service
unavailable, the casting table maximally permissive, minute addition
returning a fixed value. -/
def env0 : HostEnv :=
  { todayTm := none, nowDts := none, localToUTC := fun _ => none,
    localtimeAt := fun _ => none, daysSinceEpoch := fun _ => 0,
    addMinutes := fun _ _ => dtsZero, canCast := fun _ _ _ => true }

/-- A concrete environment whose casting table rejects everything and whose
local clock is available. -/
def envStrict : HostEnv :=
  { env0 with
    todayTm := some { sec := 0, min := 0, hour := 9, mday := 11, mon := 9, year := 126 }
    canCast := fun _ _ _ => false }

/-- A concrete environment whose local clock is available and whose casting
table is permissive. -/
def envClock : HostEnv :=
  { env0 with
    todayTm := some { sec := 0, min := 0, hour := 9, mday := 11, mon := 9, year := 126 } }

/-- The not-a-time value. -/
def natDts : DTS := { dtsZero with year := NPY_DATETIME_NAT }

deriving instance DecidableEq for Except

/-! ### Theorems -/

/-- C9: the Week unit collapses to Day in both formatter components:
`get_datetime_iso_8601_strlen` gives the same length for Day and Week
(non-local), and for every value, buffer, locality and manual offset the
formatter's result for requested unit Week equals its result for Day. -/
theorem C9_week_collapses_to_day :
    get_datetime_iso_8601_strlen false (some TimeUnit.D) =
      get_datetime_iso_8601_strlen false (some TimeUnit.W) ∧
    ∀ (env : HostEnv) (dts : DTS) (buf : List Char) (lf : Bool)
      (tz : Option Int),
      make_iso_8601_datetime env dts buf lf (some TimeUnit.W) tz =
        make_iso_8601_datetime env dts buf lf (some TimeUnit.D) tz := by
  refine ⟨rfl, fun env dts buf lf tz => ?_⟩
  unfold make_iso_8601_datetime
  by_cases hy : dts.year = NPY_DATETIME_NAT
  · simp [hy]
  · simp [hy, makeISOBody]

/-- C1 (code evaluation at the failing input): on the NaT path with a
four-byte buffer the formatter reports success, but because all four stores
go to `outstr[0]` the buffer holds a terminator at index 0 and the original
bytes after it, not the documented string "NaT". -/
theorem C1_nat_path_eval :
    make_iso_8601_datetime env0 natDts ['A', 'A', 'A', 'A'] false none none =
      (.ok (), [natC, 'A', 'A', 'A']) ∧
    [natC, 'A', 'A', 'A'] ≠ ['N', 'a', 'T', natC] := by
  constructor
  · decide
  · decide

/-- C4 (code evaluation at the failing input): the scanner consumes the
`'-'` sign after the leading-whitespace skip, but the negation tests
`str[0]`, the untrimmed first byte; so " -0100" parses to year `+100` while
"-0100" parses to year `-100`. -/
theorem C4_leading_whitespace_sign_eval :
    parse_iso_8601_datetime env0 [' ', '-', '0', '1', '0', '0'] none
        .safeCast =
      .ok ⟨{ dtsZero with year := 100 }, some false, .Y, false⟩ ∧
    parse_iso_8601_datetime env0 ['-', '0', '1', '0', '0'] none .safeCast =
      .ok ⟨{ dtsZero with year := -100 }, some false, .Y, false⟩ := by
  constructor
  · decide
  · decide

/-- C5 counterexample: "2010-03-12" is accepted on the general path, yet
appending a single trailing space makes the parse fail (the trailing
whitespace skip exists only at the timezone stage, which date-only strings
never reach): the space is consumed as the date-time separator and the
mandatory hour digits are missing. -/
theorem C5_trailing_space_cex :
    parse_iso_8601_datetime env0
        ['2', '0', '1', '0', '-', '0', '3', '-', '1', '2'] none .safeCast =
      .ok ⟨{ dtsZero with year := 2010, month := 3, day := 12 }, some false,
        .D, false⟩ ∧
    parse_iso_8601_datetime env0
        ['2', '0', '1', '0', '-', '0', '3', '-', '1', '2', ' '] none
        .safeCast =
      .error (.malformed 11) := by
  constructor
  · decide
  · decide

/-- C8 counterexample: requesting `Year` (coarser than Day, hence allowed
by the claim's "fails iff finer than Day") while the externally owned
casting table rejects the cast makes the "today" parse fail with a casting
error, refuting the claimed equivalence. -/
theorem C8_today_iff_cex :
    todayTooFine (some TimeUnit.Y) = false ∧
    parse_iso_8601_datetime envStrict ['t', 'o', 'd', 'a', 'y']
        (some TimeUnit.Y) .safeCast = .error .castError := by
  constructor
  · decide
  · decide

/-- C6: the empty string and every case variant of "NaT" parse, for every
environment, requested unit and casting rule (the casting gate and the host
clock are never consulted), to the NaT outcome: `year = NPY_DATETIME_NAT`,
not local, best unit `Generic`, special. -/
theorem C6_nat_tokens (env : HostEnv) (unit : Option TimeUnit)
    (casting : CastingRule) (s : List Char)
    (h : s = [] ∨ s.map tolowerc = ['n', 'a', 't']) :
    parse_iso_8601_datetime env s unit casting =
      .ok ⟨natDts, some false, .GENERIC, true⟩ := by
  have hnat : isNatStr s = true := by
    rcases h with h | h
    · subst h; rfl
    · rcases s with _ | ⟨a, _ | ⟨b, _ | ⟨c, _ | ⟨d, t⟩⟩⟩⟩ <;>
        simp_all [isNatStr]
  simp [parse_iso_8601_datetime, hnat, natDts]

/-- C6 witness: the mixed-case variant "nAt" with unit `Generic`. -/
theorem C6_nat_tokens_witness :
    parse_iso_8601_datetime env0 ['n', 'A', 't'] (some TimeUnit.GENERIC)
        .safeCast = .ok ⟨natDts, some false, .GENERIC, true⟩ :=
  C6_nat_tokens env0 (some .GENERIC) .safeCast ['n', 'A', 't']
    (Or.inr (by decide))

/-! ### Trailing-space lemmas for the timezone stage -/

theorem skipWS_append_space (rem : List Char) :
    ((skipWS rem).2 = [] ∧ (skipWS (rem ++ [' '])).2 = []) ∨
      ((skipWS (rem ++ [' '])).1 = (skipWS rem).1 ∧
        (skipWS (rem ++ [' '])).2 = (skipWS rem).2 ++ [' '] ∧
        (skipWS rem).2 ≠ []) := by
  induction rem with
  | nil => exact Or.inl ⟨rfl, by decide⟩
  | cons a t ih =>
      by_cases hsp : isspacec a = true
      · rcases ih with ⟨h1, h2⟩ | ⟨h1, h2, h3⟩
        · exact Or.inl ⟨by simp [skipWS, hsp, h1], by simp [skipWS, hsp, h2]⟩
        · exact Or.inr ⟨by simp [skipWS, hsp, h1], by simp [skipWS, hsp, h2],
            by simp [skipWS, hsp, h3]⟩
      · exact Or.inr ⟨by simp [skipWS, hsp], by simp [skipWS, hsp],
          by simp [skipWS, hsp]⟩

theorem afterTzSkip_append_space (env : HostEnv) (unit : Option TimeUnit)
    (casting : CastingRule) (dts : DTS) (loc : Option Bool) (bu : TimeUnit)
    (pos : Nat) (rem : List Char) :
    afterTzSkip env unit casting dts loc bu pos (rem ++ [' ']) =
      afterTzSkip env unit casting dts loc bu pos rem := by
  unfold afterTzSkip
  rcases skipWS_append_space rem with ⟨h1, h2⟩ | ⟨h1, h2, h3⟩
  · simp [h1, h2]
  · simp [h1, h2, h3]

theorem parseTimezone_z_append_space (env : HostEnv)
    (unit : Option TimeUnit) (casting : CastingRule) (dts : DTS)
    (bu : TimeUnit) (pos : Nat) (rest : List Char) :
    parseTimezone env unit casting dts bu pos ('Z' :: (rest ++ [' '])) =
      parseTimezone env unit casting dts bu pos ('Z' :: rest) := by
  cases rest with
  | nil =>
      have h1 : skipWS [' '] = (1, []) := by decide
      simp [parseTimezone, afterTzSkip, h1]
  | cons a t =>
      exact afterTzSkip_append_space env unit casting dts (some false) bu
        (pos + 1) (a :: t)

set_option maxHeartbeats 16000000 in
/-- C5 (amended): a trailing space is tolerated only by the timezone stage,
which the scan reaches only at hour-or-finer granularity, and there only in
three terminal positions.  (i) After a `'Z'` designator a trailing space
never changes the outcome.  (ii) After a full `±HH:MM` offset it never
changes the outcome (shown at the timezone stage for the offset `+05:30`,
for every input tail).  (iii) With no designator, a lone trailing space still
yields the `finish` path with `*out_local` left unwritten — but it bypasses
the local-to-UTC wall-clock conversion a designator-free end of string
performs for `1900 < year < 10000`, so the two outcomes can differ: under
the environment whose conversion is unavailable, "2016-01-01T12:30" fails
with the clock error while "2016-01-01T12:30 " succeeds unconverted.
Anywhere else the space is fatal: before the designator the parse fails
one position past the space, after an hours-only offset it fails at the
space; and coarser-granularity strings never reach the skip at all —
year-only "2010 " and month-only "2010-03 " fail at the space itself
(positions 4, 7), while day-only "2010-03-12 " consumes the space as the
date-time separator and fails one past it (position 11). -/
theorem C5_trailing_space_amended :
    (∀ (env : HostEnv) (unit : Option TimeUnit) (casting : CastingRule)
      (dts : DTS) (bu : TimeUnit) (pos : Nat) (rest : List Char),
      parseTimezone env unit casting dts bu pos ('Z' :: (rest ++ [' '])) =
        parseTimezone env unit casting dts bu pos ('Z' :: rest)) ∧
    (∀ (env : HostEnv) (unit : Option TimeUnit) (casting : CastingRule)
      (dts : DTS) (bu : TimeUnit) (pos : Nat) (rest : List Char),
      parseTimezone env unit casting dts bu pos
          ('+' :: '0' :: '5' :: ':' :: '3' :: '0' :: (rest ++ [' '])) =
        parseTimezone env unit casting dts bu pos
          ('+' :: '0' :: '5' :: ':' :: '3' :: '0' :: rest)) ∧
    (∀ (env : HostEnv) (unit : Option TimeUnit) (casting : CastingRule)
      (dts : DTS) (bu : TimeUnit) (pos : Nat),
      parseTimezone env unit casting dts bu pos [' '] =
        finishParse env unit casting dts none bu) ∧
    (parse_iso_8601_datetime env0
        ['2', '0', '1', '6', '-', '0', '1', '-', '0', '1', 'T', '1', '2',
          ':', '3', '0'] none .safeCast = .error .clockError ∧
      parse_iso_8601_datetime env0
          ['2', '0', '1', '6', '-', '0', '1', '-', '0', '1', 'T', '1', '2',
            ':', '3', '0', ' '] none .safeCast =
        .ok ⟨{ dtsZero with
                year := 2016
                month := 1
                day := 1
                hour := 12
                min := 30 }, none, .m, false⟩) ∧
    (∀ (env : HostEnv) (unit : Option TimeUnit) (casting : CastingRule)
      (dts : DTS) (bu : TimeUnit) (pos : Nat) (rest : List Char),
      parseTimezone env unit casting dts bu pos (' ' :: 'Z' :: rest) =
        .error (.malformed (pos + 1))) ∧
    (∀ (env : HostEnv) (unit : Option TimeUnit) (casting : CastingRule)
      (dts : DTS) (bu : TimeUnit) (pos : Nat),
      parseTimezone env unit casting dts bu pos ['+', '0', '5', ' '] =
        .error (.malformed (pos + 3))) ∧
    (∀ (env : HostEnv) (casting : CastingRule),
      parse_iso_8601_datetime env ['2', '0', '1', '0', ' '] none casting =
          .error (.malformed 4) ∧
        parse_iso_8601_datetime env
            ['2', '0', '1', '0', '-', '0', '3', ' '] none casting =
          .error (.malformed 7) ∧
        parse_iso_8601_datetime env
            ['2', '0', '1', '0', '-', '0', '3', '-', '1', '2', ' '] none
            casting =
          .error (.malformed 11)) := by
  refine ⟨parseTimezone_z_append_space, ?_,
    fun env unit casting dts bu pos => rfl, ⟨by decide, by decide⟩,
    fun env unit casting dts bu pos rest => rfl,
    fun env unit casting dts bu pos => rfl,
    fun env casting => ⟨rfl, rfl, rfl⟩⟩
  intro env unit casting dts bu pos rest
  cases rest with
  | nil => rfl
  | cons a t =>
      exact afterTzSkip_append_space env unit casting _ (some false) bu _
        (a :: t)

/-! ### Fractional-group lemmas -/

/-- When no digit is available the group loop only multiplies: the digit
count and the rest are unchanged. -/
theorem readFracGroup_stall (fuel : Nat) (acc : Int) (nd : Nat)
    (rem : List Char) (h : isdigitc (peekc rem) = false) :
    (readFracGroup fuel acc nd rem).2 = (nd, rem) := by
  induction fuel generalizing acc with
  | zero => rfl
  | succ f ih =>
      cases rem with
      | nil => exact ih (acc * 10)
      | cons c r =>
          simp only [peekc] at h
          simp only [readFracGroup, h, Bool.false_eq_true, if_false]
          exact ih (acc * 10)

/-- A group over at least `fuel` leading digits consumes exactly `fuel` of
them. -/
theorem readFracGroup_full (fuel : Nat) (acc : Int) (nd : Nat)
    (ds rest : List Char) (hd : ∀ c ∈ ds, isdigitc c = true)
    (hlen : fuel ≤ ds.length) :
    (readFracGroup fuel acc nd (ds ++ rest)).2 =
      (nd + fuel, ds.drop fuel ++ rest) := by
  induction fuel generalizing ds acc nd with
  | zero => simp [readFracGroup]
  | succ f ih =>
      cases ds with
      | nil => simp at hlen
      | cons c ds1 =>
          have hc : isdigitc c = true := hd c (by simp)
          simp only [List.cons_append, readFracGroup, hc, if_true]
          have := ih (acc * 10 + dval c) (nd + 1) ds1
            (fun x hx => hd x (by simp [hx])) (by simpa using hlen)
          rw [this]
          simp [List.drop_succ_cons]
          omega

/-- A group over fewer than `fuel` leading digits consumes all of them and
stops at the following non-digit. -/
theorem readFracGroup_partial (fuel : Nat) (acc : Int) (nd : Nat)
    (ds rest : List Char) (hd : ∀ c ∈ ds, isdigitc c = true)
    (hlen : ds.length < fuel) (hrest : isdigitc (peekc rest) = false) :
    (readFracGroup fuel acc nd (ds ++ rest)).2 = (nd + ds.length, rest) := by
  induction fuel generalizing ds acc nd with
  | zero => omega
  | succ f ih =>
      cases ds with
      | nil =>
          simpa using readFracGroup_stall (f + 1) acc nd rest hrest
      | cons c ds1 =>
          have hc : isdigitc c = true := hd c (by simp)
          simp only [List.cons_append, readFracGroup, hc, if_true]
          have := ih (acc * 10 + dval c) (nd + 1) ds1
            (fun x hx => hd x (by simp [hx])) (by simpa using hlen)
          rw [this]
          simp
          omega

/-- One six-digit group over at most six leading digits consumes exactly
those digits. -/
theorem readFracGroup_six (ds rest : List Char)
    (hd : ∀ c ∈ ds, isdigitc c = true) (hlen : ds.length ≤ 6)
    (hrest : isdigitc (peekc rest) = false) :
    (readFracGroup 6 0 0 (ds ++ rest)).2 = (ds.length, rest) := by
  rcases Nat.lt_or_ge ds.length 6 with hlt | hge
  · simpa using readFracGroup_partial 6 0 0 ds rest hd hlt hrest
  · have h6 : ds.length = 6 := le_antisymm hlen hge
    have := readFracGroup_full 6 0 0 ds rest hd (by omega)
    rw [this, List.drop_eq_nil_of_le (by omega)]
    simp [h6]

theorem parseFrac_bestUnit (ds rest : List Char) (dts : DTS) (pos : Nat)
    (hd : ∀ c ∈ ds, isdigitc c = true)
    (hrest : isdigitc (peekc rest) = false) (hlen : ds.length ≤ 18) :
    scanBu (parseFrac dts pos (ds ++ rest)) = fracBestUnitSpec ds.length := by
  rcases Nat.lt_or_ge ds.length 7 with h6 | h6
  · have hg := readFracGroup_six ds rest hd (by omega) hrest
    simp [parseFrac, hg, hrest, scanBu, fracBestUnitSpec,
      show ds.length ≤ 6 by omega]
  · have hg1 := readFracGroup_full 6 0 0 ds rest hd (by omega)
    have hlen6 : (ds.drop 6).length = ds.length - 6 := by simp
    obtain ⟨c, r, hcr⟩ : ∃ c r, ds.drop 6 = c :: r := by
      cases hdd : ds.drop 6 with
      | nil => rw [hdd] at hlen6; simp at hlen6; omega
      | cons c r => exact ⟨c, r, rfl⟩
    have hsub : ∀ x ∈ ds.drop 6, isdigitc x = true := fun x hx =>
      hd x (List.drop_subset 6 ds hx)
    have hcdig : isdigitc c = true := hsub c (by rw [hcr]; simp)
    have hpeek1 : peekc (ds.drop 6 ++ rest) = c := by rw [hcr]; rfl
    have hne1 : ¬(ds.drop 6 ++ rest = []) := by rw [hcr]; simp
    rcases Nat.lt_or_ge ds.length 13 with h12 | h12
    · have hg2 := readFracGroup_six (ds.drop 6) rest hsub (by omega) hrest
      simp [parseFrac, hg1, hg2, hpeek1, hne1, hcdig, scanBu,
        fracBestUnitSpec, show ¬(ds.length ≤ 6) by omega,
        show ds.length ≤ 12 by omega, hrest, hlen6]
    · have hg2 := readFracGroup_full 6 0 0 (ds.drop 6) rest hsub (by omega)
      have hdd12 : (ds.drop 6).drop 6 = ds.drop 12 := by
        rw [List.drop_drop]
      rw [hdd12] at hg2
      have hlen12 : (ds.drop 12).length = ds.length - 12 := by simp
      obtain ⟨c2, r2, hcr2⟩ : ∃ c2 r2, ds.drop 12 = c2 :: r2 := by
        cases hdd : ds.drop 12 with
        | nil => rw [hdd] at hlen12; simp at hlen12; omega
        | cons c2 r2 => exact ⟨c2, r2, rfl⟩
      have hsub2 : ∀ x ∈ ds.drop 12, isdigitc x = true := fun x hx =>
        hd x (List.drop_subset 12 ds hx)
      have hc2dig : isdigitc c2 = true := hsub2 c2 (by rw [hcr2]; simp)
      have hpeek2 : peekc (ds.drop 12 ++ rest) = c2 := by rw [hcr2]; rfl
      have hne2 : ¬(ds.drop 12 ++ rest = []) := by rw [hcr2]; simp
      have hg3 := readFracGroup_six (ds.drop 12) rest hsub2 (by omega) hrest
      simp [parseFrac, hg1, hg2, hg3, hpeek1, hne1, hpeek2, hne2, hcdig,
        hc2dig, scanBu, fracBestUnitSpec, show ¬(ds.length ≤ 6) by omega,
        show ¬(ds.length ≤ 12) by omega, hrest, hlen12]

set_option maxHeartbeats 2000000 in
/-- C3: the digit count actually present in the last sub-second group read
determines the best unit (more than three digits in the group selects the
finer member of the unit pair, at each of the micro/milli, pico/nano and
atto/femto tiers), and concretely
`parse("2016-01-01T12:30:45.123456789012Z")` succeeds with best unit
`Picosecond` and non-local. -/
theorem C3_frac_digit_count_best_unit :
    (∀ (ds rest : List Char) (dts : DTS) (pos : Nat),
        (∀ c ∈ ds, isdigitc c = true) → isdigitc (peekc rest) = false →
        ds.length ≤ 18 →
        scanBu (parseFrac dts pos (ds ++ rest)) =
          fracBestUnitSpec ds.length) ∧
    (∀ (env : HostEnv) (casting : CastingRule),
        parse_iso_8601_datetime env
            ['2', '0', '1', '6', '-', '0', '1', '-', '0', '1', 'T', '1', '2',
              ':', '3', '0', ':', '4', '5', '.', '1', '2', '3', '4', '5',
              '6', '7', '8', '9', '0', '1', '2', 'Z'] none casting =
          .ok ⟨⟨2016, 1, 1, 12, 30, 45, 123456, 789012, 0⟩,
            some false, .ps, false⟩) :=
  ⟨parseFrac_bestUnit, fun env casting => rfl⟩

/-- C3 witness: four microsecond digits followed by a non-digit yield
`Microsecond`. -/
theorem C3_frac_digit_count_best_unit_witness :
    scanBu (parseFrac dtsZero 0 (['1', '2', '3', '4'] ++ [])) =
      fracBestUnitSpec 4 ∧ fracBestUnitSpec 4 = TimeUnit.us :=
  ⟨C3_frac_digit_count_best_unit.1 ['1', '2', '3', '4'] [] dtsZero 0
    (by decide) (by decide) (by decide), by decide⟩

/-! ### Field-range invariant (C7) -/

theorem dval_bounds {c : Char} (h : isdigitc c = true) :
    0 ≤ dval c ∧ dval c ≤ 9 := by
  simp only [isdigitc, Bool.and_eq_true, decide_eq_true_eq] at h
  unfold dval
  omega

theorem read2_bounds {l : List Char} {v : Int} {r : List Char}
    (h : read2 l = some (v, r)) : 0 ≤ v ∧ v ≤ 99 := by
  match l with
  | [] => exact (Option.noConfusion h)
  | [a] => exact (Option.noConfusion h)
  | a :: b :: t =>
      simp only [read2] at h
      by_cases hab : (isdigitc a && isdigitc b) = true
      · rw [if_pos hab] at h
        simp only [Bool.and_eq_true] at hab
        have da := dval_bounds hab.1
        have db := dval_bounds hab.2
        injection h with h
        injection h with h1 h2
        omega
      · rw [if_neg hab] at h
        exact (Option.noConfusion h)

theorem days_per_month_table_ge {lp : Bool} {mv : Int} (h1 : 1 ≤ mv)
    (h2 : mv ≤ 12) : 28 ≤ days_per_month_table lp mv := by
  interval_cases mv <;> cases lp <;> norm_num [days_per_month_table]

theorem parseFrac_fieldsOK {dts : DTS} (pos : Nat) (rem : List Char)
    (hok : dtsFieldsOK dts) : dtsFieldsOK (scanDts (parseFrac dts pos rem)) := by
  simp only [parseFrac]
  split
  · dsimp only [scanDts, dtsFieldsOK] at hok ⊢
    exact hok
  · split
    · dsimp only [scanDts, dtsFieldsOK] at hok ⊢
      exact hok
    · dsimp only [scanDts, dtsFieldsOK] at hok ⊢
      exact hok

theorem scanSeconds_fieldsOK {dts : DTS} {pos : Nat} {rem : List Char}
    {r : ScanResult} (hok : dtsFieldsOK dts)
    (h : scanSeconds dts pos rem = .ok r) : dtsFieldsOK (scanDts r) := by
  unfold scanSeconds at h
  split at h
  · split at h
    · exact (Except.noConfusion h)
    · rename_i se rem13 hread
      split at h
      · exact (Except.noConfusion h)
      · rename_i hchk
        split at h
        · injection h with h
          subst h
          refine parseFrac_fieldsOK _ _ ?_
          dsimp only [dtsFieldsOK] at hok ⊢
          omega
        · injection h with h
          subst h
          dsimp only [scanDts, dtsFieldsOK] at hok ⊢
          omega
  · injection h with h
    subst h
    exact hok

theorem scanMinutes_fieldsOK {dts : DTS} {pos : Nat} {rem : List Char}
    {r : ScanResult} (hok : dtsFieldsOK dts)
    (h : scanMinutes dts pos rem = .ok r) : dtsFieldsOK (scanDts r) := by
  unfold scanMinutes at h
  split at h
  · split at h
    · exact (Except.noConfusion h)
    · rename_i mi rem11 hread
      split at h
      · exact (Except.noConfusion h)
      · rename_i hchk
        have hb := read2_bounds hread
        refine scanSeconds_fieldsOK ?_ h
        dsimp only [dtsFieldsOK] at hok ⊢
        omega
  · injection h with h
    subst h
    exact hok

theorem scanHours_fieldsOK {dts : DTS} {pos : Nat} {rem : List Char}
    {r : ScanResult} (hok : dtsFieldsOK dts)
    (h : scanHours dts pos rem = .ok r) : dtsFieldsOK (scanDts r) := by
  unfold scanHours at h
  split at h
  · injection h with h
    subst h
    exact hok
  · split at h
    · exact (Except.noConfusion h)
    · split at h
      · exact (Except.noConfusion h)
      · rename_i hr rem9 hread
        split at h
        · exact (Except.noConfusion h)
        · rename_i hchk
          refine scanMinutes_fieldsOK ?_ h
          dsimp only [dtsFieldsOK] at hok ⊢
          omega

theorem scanDay_fieldsOK {dts : DTS} {leap : Bool} {pos : Nat}
    {rem : List Char} {r : ScanResult} (hok : dtsFieldsOK dts)
    (hleap : leap = is_leapyear dts.year)
    (h : scanDay dts leap pos rem = .ok r) : dtsFieldsOK (scanDts r) := by
  unfold scanDay at h
  split at h
  · injection h with h
    subst h
    exact hok
  · split at h
    · exact (Except.noConfusion h)
    · split at h
      · exact (Except.noConfusion h)
      · rename_i dy rem7 hread
        split at h
        · exact (Except.noConfusion h)
        · rename_i hchk
          subst hleap
          refine scanHours_fieldsOK ?_ h
          dsimp only [dtsFieldsOK] at hok ⊢
          omega

theorem scanMonth_fieldsOK {dts : DTS} {leap : Bool} {pos : Nat}
    {rem : List Char} {r : ScanResult} (hok : dtsFieldsOK dts)
    (hday : dts.day = 1) (hleap : leap = is_leapyear dts.year)
    (h : scanMonth dts leap pos rem = .ok r) : dtsFieldsOK (scanDts r) := by
  unfold scanMonth at h
  split at h
  · injection h with h
    subst h
    exact hok
  · split at h
    · exact (Except.noConfusion h)
    · split at h
      · exact (Except.noConfusion h)
      · rename_i mo rem5 hread
        split at h
        · exact (Except.noConfusion h)
        · rename_i hchk
          have htb : 28 ≤ days_per_month_table (is_leapyear dts.year) mo :=
            days_per_month_table_ge (by omega) (by omega)
          refine scanDay_fieldsOK ?_ ?_ h
          · dsimp only [dtsFieldsOK] at hok ⊢
            omega
          · exact hleap

theorem parseMain_fieldsOK {str : List Char} {r : ScanResult}
    (h : parseMain str = .ok r) : dtsFieldsOK (scanDts r) := by
  simp only [parseMain] at h
  split at h
  · split at h
    · exact (Except.noConfusion h)
    · refine scanMonth_fieldsOK ?_ rfl rfl h
      dsimp only [dtsFieldsOK, dtsZero]
      norm_num [days_per_month_table]
  · split at h
    · exact (Except.noConfusion h)
    · refine scanMonth_fieldsOK ?_ rfl rfl h
      dsimp only [dtsFieldsOK, dtsZero]
      norm_num [days_per_month_table]

set_option maxHeartbeats 2000000 in
/-- C7: every successful non-special field scan (the state handed to the
timezone stage or to a date-granularity finish, i.e. before any timezone
conversion) has internally consistent fields: month in [1,12], day within
the leap-aware month length, hour in [0,23], minute and second in [0,59];
and concretely "2010-02-29" (2010 not leap) fails with the day range error
while "2000-02-29" (2000 leap) succeeds. -/
theorem C7_field_ranges :
    (∀ (str : List Char) (r : ScanResult),
        parseMain str = .ok r → dtsFieldsOK (scanDts r)) ∧
    (∀ (env : HostEnv) (casting : CastingRule),
        parse_iso_8601_datetime env
            ['2', '0', '1', '0', '-', '0', '2', '-', '2', '9'] none casting =
          .error .dayRange) ∧
    (∀ (env : HostEnv) (casting : CastingRule),
        parse_iso_8601_datetime env
            ['2', '0', '0', '0', '-', '0', '2', '-', '2', '9'] none casting =
          .ok ⟨⟨2000, 2, 29, 0, 0, 0, 0, 0, 0⟩, some false, .D, false⟩) :=
  ⟨fun str r h => parseMain_fieldsOK h, fun env casting => rfl,
    fun env casting => rfl⟩

/-- C7 witness: the leap-day scan result for "2000-02-29". -/
theorem C7_field_ranges_witness :
    dtsFieldsOK
      (scanDts (ScanResult.done ⟨2000, 2, 29, 0, 0, 0, 0, 0, 0⟩ .D)) :=
  C7_field_ranges.1 ['2', '0', '0', '0', '-', '0', '2', '-', '2', '9']
    (ScanResult.done ⟨2000, 2, 29, 0, 0, 0, 0, 0, 0⟩ .D) (by decide)

/-- C8 (amended): for the special token "today", a requested `Generic` unit
is rejected first (generic-unit error); a requested unit finer than `Day` is
rejected before the clock is read; otherwise a clock failure surfaces as the
clock error, and with the clock available the parse yields the host's local
calendar date with `bestUnit = Day`, `isLocal = false`, `isSpecial = true` —
failing exactly when the casting gate rejects `(Day, requestedUnit, rule)`. -/
theorem C8_today_amended (env : HostEnv) (unit : Option TimeUnit)
    (casting : CastingRule) :
    (unit = some .GENERIC →
      parse_iso_8601_datetime env ['t', 'o', 'd', 'a', 'y'] unit casting =
        .error .genericUnit) ∧
    (∀ u, unit = some u → u ≠ .GENERIC → todayTooFine unit = true →
      parse_iso_8601_datetime env ['t', 'o', 'd', 'a', 'y'] unit casting =
        .error .todayUnit) ∧
    (unit ≠ some .GENERIC → todayTooFine unit = false → env.todayTm = none →
      parse_iso_8601_datetime env ['t', 'o', 'd', 'a', 'y'] unit casting =
        .error .clockError) ∧
    (∀ t, unit = none → env.todayTm = some t →
      parse_iso_8601_datetime env ['t', 'o', 'd', 'a', 'y'] unit casting =
        .ok ⟨⟨t.year + 1900, t.mon + 1, t.mday, 0, 0, 0, 0, 0, 0⟩,
          some false, .D, true⟩) ∧
    (∀ t u, unit = some u → u ≠ .GENERIC → todayTooFine unit = false →
      env.todayTm = some t →
      parse_iso_8601_datetime env ['t', 'o', 'd', 'a', 'y'] unit casting =
        if env.canCast .D u casting then
          .ok ⟨⟨t.year + 1900, t.mon + 1, t.mday, 0, 0, 0, 0, 0, 0⟩,
            some false, .D, true⟩
        else .error .castError) := by
  have h1 : isNatStr ['t', 'o', 'd', 'a', 'y'] = false := rfl
  have h2 : isTodayStr ['t', 'o', 'd', 'a', 'y'] = true := rfl
  refine ⟨?_, ?_, ?_, ?_, ?_⟩
  · rintro rfl
    rfl
  · rintro u rfl hne hfine
    simp only [parse_iso_8601_datetime, h1, h2, Bool.false_eq_true, if_false,
      if_true, hfine]
    rw [if_neg (by simpa using hne)]
  · intro hgen hfine hclock
    simp only [parse_iso_8601_datetime, h1, h2, Bool.false_eq_true, if_false,
      if_true, hfine, hclock]
    rw [if_neg hgen]
  · rintro t rfl hsome
    simp only [parse_iso_8601_datetime, h1, h2, Bool.false_eq_true, if_false,
      if_true, todayTooFine, hsome]
    rfl
  · rintro t u rfl hne hfine hsome
    simp only [parse_iso_8601_datetime, h1, h2, Bool.false_eq_true, if_false,
      if_true, hfine, hsome]
    rw [if_neg (by simpa using hne)]
    rfl

/-- C8 amended witness: an available clock, no requested unit. -/
theorem C8_today_amended_witness :
    parse_iso_8601_datetime envClock ['t', 'o', 'd', 'a', 'y'] none
        .safeCast =
      .ok ⟨⟨2026, 10, 11, 0, 0, 0, 0, 0, 0⟩, some false, .D, true⟩ :=
  (C8_today_amended envClock none .safeCast).2.2.2.1
    ⟨0, 0, 9, 11, 9, 126⟩ rfl rfl

/-! ### Buffer-length sufficiency (C2) -/

theorem natDigitsAux_len : ∀ (fuel n k : Nat), n ≤ fuel → n < 10 ^ k →
    (natDigitsAux fuel n).length ≤ k := by
  intro fuel
  induction fuel with
  | zero => intro n k h1 h2; simp [natDigitsAux]
  | succ f ih =>
      intro n k h1 h2
      by_cases h0 : n = 0
      · simp [natDigitsAux, h0]
      · have hk : 1 ≤ k := by
          rcases Nat.eq_zero_or_pos k with hk0 | hk0
          · subst hk0; simp at h2; omega
          · omega
        have hd1 : n / 10 ≤ f := by
          have := Nat.div_lt_self (by omega : 0 < n) (by omega : 1 < 10)
          omega
        have hd2 : n / 10 < 10 ^ (k - 1) := by
          rw [Nat.div_lt_iff_lt_mul (by omega : 0 < 10)]
          calc n < 10 ^ k := h2
            _ = 10 ^ (k - 1) * 10 := by
                  rw [← Nat.pow_succ]
                  congr 1
                  omega
        have := ih (n / 10) (k - 1) hd1 hd2
        simp only [natDigitsAux, h0, if_false]
        rw [List.length_append]
        simp
        omega

theorem natDigitsStr_len {n : Nat} (h : n < 10 ^ 19) :
    (natDigitsStr n).length ≤ 19 := by
  unfold natDigitsStr
  by_cases h0 : n = 0
  · simp [h0]
  · rw [if_neg h0]
    exact natDigitsAux_len n n 19 (le_refl n) h

theorem yearStr_len_le {y : Int} (h1 : -(2 ^ 63) ≤ y) (h2 : y < 2 ^ 63) :
    (yearStr y).length ≤ 20 := by
  have hp : ((2 : Int) ^ 63) = 9223372036854775808 := by norm_num
  unfold yearStr leftPad
  by_cases hy : y < 0
  · rw [if_pos hy]
    have hbound : (-y).toNat < 10 ^ 19 := by
      have : (10 : Nat) ^ 19 = 10000000000000000000 := by norm_num
      omega
    have := natDigitsStr_len hbound
    simp only [List.length_cons, List.length_append, List.length_replicate]
    omega
  · rw [if_neg hy]
    have hbound : y.toNat < 10 ^ 19 := by
      have : (10 : Nat) ^ 19 = 10000000000000000000 := by norm_num
      omega
    have := natDigitsStr_len hbound
    simp only [List.length_append, List.length_replicate]
    omega

theorem putYear_ok {b : List Char} {sub : Int} {y : Int}
    (h : ((yearStr y).length : Int) < sub) :
    putYear b sub y =
      .ok ((yearStr y).length, sub - (yearStr y).length, putYearBuf b y) := by
  have hw : (min ((yearStr y).length : Int) (sub - 1)).toNat =
      (yearStr y).length := by omega
  simp only [putYear, hw, List.take_length, putYearBuf]
  rw [if_neg (by omega : ¬ sub ≤ 0),
    if_neg (by omega :
      ¬ (((yearStr y).length : Int) < 0 ∨ sub ≤ ((yearStr y).length : Int)))]

theorem put3_ok {b : List Char} {p : Nat} {sub : Int} {c0 c1 c2 : Char}
    (h : 3 < sub) :
    put3 b p sub c0 c1 c2 = .ok (put3buf b p c0 c1 c2) := by
  simp only [put3, put3buf]
  rw [if_neg (by omega), if_neg (by omega), if_neg (by omega)]

theorem put4_ok {b : List Char} {p : Nat} {sub : Int} {c0 c1 c2 c3 : Char}
    (h : 4 < sub) :
    put4 b p sub c0 c1 c2 c3 = .ok (put4buf b p c0 c1 c2 c3) := by
  simp only [put4, put4buf]
  rw [if_neg (by omega), if_neg (by omega), if_neg (by omega),
    if_neg (by omega)]

theorem tzStep_ne_short_local {b : List Char} {p : Nat} {sub : Int}
    {off : Int} (h : 5 < sub) :
    (tzStep b p sub true off).1 ≠ .error .bufferTooShort := by
  simp only [tzStep, if_true]
  rw [if_neg (by omega), if_neg (by omega), if_neg (by omega),
    if_neg (by omega), if_neg (by omega)]
  simp

theorem tzStep_ne_short_z {b : List Char} {p : Nat} {sub : Int}
    {off : Int} (h : 1 < sub) :
    (tzStep b p sub false off).1 ≠ .error .bufferTooShort := by
  simp only [tzStep, Bool.false_eq_true, if_false]
  rw [if_neg (by omega)]
  simp

theorem tzStep_ne_short {b : List Char} {p : Nat} {sub : Int} {lf : Bool}
    {off : Int} (h : (if lf then (5 : Int) else 1) < sub) :
    (tzStep b p sub lf off).1 ≠ .error .bufferTooShort := by
  cases lf
  · exact tzStep_ne_short_z (by simpa using h)
  · exact tzStep_ne_short_local (by simpa using h)

set_option maxHeartbeats 12000000 in
theorem emitISO_ne_short (base : TimeUnit) (lf : Bool) (dts : DTS)
    (b : List Char) (sub : Int) (off : Int) (hbase : base ≠ .GENERIC)
    (hW : base ≠ .W) (hyd : (yearStr dts.year).length ≤ 20)
    (hsub : get_datetime_iso_8601_strlen lf (some base) ≤ sub) :
    (emitISO dts b sub base lf off).1 ≠ .error .bufferTooShort := by
  have hif : (if lf then (5 : Int) else 1) ≤ 5 := by cases lf <;> norm_num
  have hsub2 : (if TimeUnit.h.ord ≤ base.ord then
      baseLen base + (if lf then (5 : Int) else 1) else baseLen base) + 1 ≤
      sub := by
    cases lf <;> simpa [get_datetime_iso_8601_strlen] using hsub
  clear hsub
  cases base <;> first
    | exact absurd rfl hbase
    | exact absurd rfl hW
    | (norm_num [baseLen, TimeUnit.ord] at hsub2
       rw [emitISO, putYear_ok (by omega)]
       dsimp only
       repeat (first
         | (rw [put3_ok (by omega)]; dsimp only)
         | (rw [put4_ok (by omega)]; dsimp only))
       simp +decide only [if_true, if_false]
       all_goals first
         | (refine tzStep_ne_short ?_; omega)
         | simp)


theorem strlen_ge_four (lf : Bool) (base : Option TimeUnit) :
    (4 : Int) ≤ get_datetime_iso_8601_strlen lf base := by
  match base with
  | none => norm_num [get_datetime_iso_8601_strlen,
      NPY_DATETIME_MAX_ISO8601_STRLEN]
  | some b =>
      cases b <;> cases lf <;>
        norm_num [get_datetime_iso_8601_strlen, baseLen, TimeUnit.ord]

theorem strlen_false_le (b : TimeUnit) :
    get_datetime_iso_8601_strlen false (some b) ≤
      get_datetime_iso_8601_strlen true (some b) := by
  cases b <;> norm_num [get_datetime_iso_8601_strlen, baseLen, TimeUnit.ord]

theorem strlen_WD (lf : Bool) :
    get_datetime_iso_8601_strlen lf (some TimeUnit.W) =
      get_datetime_iso_8601_strlen lf (some TimeUnit.D) := rfl

set_option maxHeartbeats 2000000 in
theorem makeISOBody_ne_short (env : HostEnv) (dts : DTS) (buf : List Char)
    (lf : Bool) (base : TimeUnit) (tz : Option Int)
    (hbg : base ≠ TimeUnit.GENERIC)
    (hlen : get_datetime_iso_8601_strlen lf (some base) ≤ (buf.length : Int))
    (hy1 : -(2 ^ 63) ≤ dts.year) (hy2 : dts.year < 2 ^ 63)
    (henvL : ∀ t m, env.localtimeAt t = some m →
      -(2 ^ 63) ≤ m.year + 1900 ∧ m.year + 1900 < 2 ^ 63)
    (henvA : ∀ d k, -(2 ^ 63) ≤ (env.addMinutes d k).year ∧
      (env.addMinutes d k).year < 2 ^ 63) :
    (makeISOBody env dts buf lf (some base) tz).1 ≠
      .error .bufferTooShort := by
  have hys : (yearStr dts.year).length ≤ 20 := yearStr_len_le hy1 hy2
  unfold makeISOBody
  dsimp only
  set B : TimeUnit := if base = TimeUnit.W then TimeUnit.D else base with hB
  have hBG : B ≠ TimeUnit.GENERIC := by
    by_cases hbw : base = TimeUnit.W
    · rw [hB, if_pos hbw]; decide
    · rw [hB, if_neg hbw]; exact hbg
  have hBW : B ≠ TimeUnit.W := by
    by_cases hbw : base = TimeUnit.W
    · rw [hB, if_pos hbw]; decide
    · rw [hB, if_neg hbw]; exact hbw
  have hBlen : get_datetime_iso_8601_strlen lf (some B) =
      get_datetime_iso_8601_strlen lf (some base) := by
    by_cases hbw : base = TimeUnit.W
    · rw [hB, if_pos hbw, hbw, strlen_WD]
    · rw [hB, if_neg hbw]
  have hflen : get_datetime_iso_8601_strlen false (some B) ≤
      (buf.length : Int) := by
    have := strlen_false_le B
    cases lf
    · omega
    · omega
  by_cases hord : B.ord < TimeUnit.h.ord
  · rw [if_pos hord]
    have hcond : ¬((false = true ∧ tz = none)) := by simp
    rw [if_neg hcond, if_neg (by simp : ¬ (false = true))]
    exact emitISO_ne_short B false dts buf _ _ hBG hBW hys hflen
  · rw [if_neg hord]
    rcases tz with _ | off
    · by_cases hg : (dts.year ≤ 1900 ∨ 10000 ≤ dts.year) ∧
          (none : Option Int) = none
      · rw [if_pos hg]
        have hcond : ¬((false = true ∧ (none : Option Int) = none)) := by
          simp
        rw [if_neg hcond, if_neg (by simp : ¬ (false = true))]
        exact emitISO_ne_short B false dts buf _ _ hBG hBW hys hflen
      · rw [if_neg hg]
        cases lf with
        | false =>
            have hcond : ¬((false = true ∧ (none : Option Int) = none)) := by
              simp
            rw [if_neg hcond, if_neg (by simp : ¬ (false = true))]
            exact emitISO_ne_short B false dts buf _ _ hBG hBW hys hflen
        | true =>
            rw [if_pos ⟨rfl, rfl⟩]
            cases hlt : env.localtimeAt (env.daysSinceEpoch dts * 24 * 60 * 60 +
                dts.hour * 60 * 60 + dts.min * 60) with
            | none => simp
            | some t =>
                have hyt := henvL _ _ hlt
                refine emitISO_ne_short B true _ buf _ _ hBG hBW ?_ ?_
                · exact yearStr_len_le (by dsimp only; omega)
                    (by dsimp only; omega)
                · omega
    · have hgate : ¬((dts.year ≤ 1900 ∨ 10000 ≤ dts.year) ∧
          (some off : Option Int) = none) := by simp
      rw [if_neg hgate]
      have hcond : ¬((lf = true ∧ (some off : Option Int) = none)) := by simp
      rw [if_neg hcond]
      cases lf with
      | false =>
          rw [if_neg (by simp : ¬ (false = true))]
          exact emitISO_ne_short B false dts buf _ _ hBG hBW hys hflen
      | true =>
          rw [if_pos rfl]
          have hya := henvA dts off
          refine emitISO_ne_short B true _ buf _ _ hBG hBW ?_ ?_
          · exact yearStr_len_le (by omega) (by omega)
          · omega

/-- C2: with the buffer sized exactly by `get_datetime_iso_8601_strlen` for
the same locality flag and (concrete) unit, the formatter never fails with
the buffer-too-short error — for every broken-down value whose year is a
64-bit integer, every locality flag, every unit and every manual offset,
provided the host's local-time and minute-addition services return 64-bit
representable years (as the C `struct tm` and `npy_datetimestruct` do). -/
theorem C2_strlen_bounds_formatter (env : HostEnv) (dts : DTS)
    (buf : List Char) (lf : Bool) (base : TimeUnit) (tz : Option Int)
    (hlen : (buf.length : Int) = get_datetime_iso_8601_strlen lf (some base))
    (hy1 : -(2 ^ 63) ≤ dts.year) (hy2 : dts.year < 2 ^ 63)
    (henvL : ∀ t m, env.localtimeAt t = some m →
      -(2 ^ 63) ≤ m.year + 1900 ∧ m.year + 1900 < 2 ^ 63)
    (henvA : ∀ d k, -(2 ^ 63) ≤ (env.addMinutes d k).year ∧
      (env.addMinutes d k).year < 2 ^ 63) :
    (make_iso_8601_datetime env dts buf lf (some base) tz).1 ≠
      .error .bufferTooShort := by
  have h4 := strlen_ge_four lf (some base)
  unfold make_iso_8601_datetime
  split
  · rw [if_neg (by omega : ¬ buf.length < 4)]
    simp
  · rename_i hnat
    have hbg : base ≠ TimeUnit.GENERIC := fun he => hnat (Or.inr (by rw [he]))
    exact makeISOBody_ne_short env dts buf lf base tz hbg (by omega) hy1 hy2
      henvL henvA

/-- C2 witness: a concrete value, local output at second granularity with
the exactly sized buffer. -/
theorem C2_strlen_bounds_formatter_witness :
    (make_iso_8601_datetime env0 ⟨2000, 2, 29, 13, 59, 59, 0, 0, 0⟩
        (List.replicate 42 '?') true TimeUnit.s none).1 ≠
      .error .bufferTooShort :=
  C2_strlen_bounds_formatter env0 ⟨2000, 2, 29, 13, 59, 59, 0, 0, 0⟩
    (List.replicate 42 '?') true TimeUnit.s none (by decide) (by decide)
    (by decide) (fun t m h => nomatch h)
    (fun d k => by constructor <;> norm_num [env0, dtsZero])
